import Mathlib

/-!
Verification of the home-server file-sharing HTTP server (server.js).

The server is shallowly embedded: the filesystem is an explicit finite map
from absolute paths to entries, each route handler of the source becomes a
Lean function from request data and filesystem state to an outcome (a
response together with the new filesystem state, or an uncaught exception),
and the router dispatches exactly as the if/else-if chain of the source.
-/

namespace HomeServer

/-- Absolute filesystem path, as the list of its components from the root. -/
abbrev FPath := List String

/-- A filesystem entry: a regular file with its bytes, a directory, or an
entry that exists but cannot be inspected (its stat fails, e.g. permission
error), modelling the try/catch around statSync in the listing handler. -/
inductive FSEntry where
  | file (content : List Nat)
  | dir
  | inaccessible
deriving DecidableEq, Repr

/-- Filesystem state: a finite association of paths to entries. -/
abbrev FS := List (FPath × FSEntry)

def fsGet (fs : FS) (p : FPath) : Option FSEntry :=
  match fs with
  | [] => none
  | qe :: rest => if qe.1 = p then some qe.2 else fsGet rest p

def fsErase (fs : FS) (p : FPath) : FS :=
  fs.filter (fun qe => qe.1 ≠ p)

def fsSet (fs : FS) (p : FPath) (e : FSEntry) : FS :=
  (p, e) :: fsErase fs p

/-- Error codes of the Node fs callbacks the server distinguishes. -/
inductive FsError where
  | ENOENT
  | EISDIR
  | EACCES
  | EPERM
  | ENOTDIR
deriving DecidableEq, Repr

def FsError.code : FsError → String
  | .ENOENT => "ENOENT"
  | .EISDIR => "EISDIR"
  | .EACCES => "EACCES"
  | .EPERM => "EPERM"
  | .ENOTDIR => "ENOTDIR"

def FsError.message : FsError → String
  | .ENOENT => "ENOENT: no such file or directory"
  | .EISDIR => "EISDIR: illegal operation on a directory"
  | .EACCES => "EACCES: permission denied"
  | .EPERM => "EPERM: operation not permitted"
  | .ENOTDIR => "ENOTDIR: not a directory"

/-- fs.statSync(p).isFile(): throws if the path is absent or uninspectable. -/
def fsStatIsFile (fs : FS) (p : FPath) : Except FsError Bool :=
  match fsGet fs p with
  | none => .error .ENOENT
  | some .inaccessible => .error .EACCES
  | some (.file _) => .ok true
  | some .dir => .ok false

/-- fs.readFile: the bytes of a regular file, or the error code Node reports. -/
def fsReadFile (fs : FS) (p : FPath) : Except FsError (List Nat) :=
  match fsGet fs p with
  | none => .error .ENOENT
  | some .dir => .error .EISDIR
  | some .inaccessible => .error .EACCES
  | some (.file c) => .ok c

/-- fs.unlink: removes a regular file; ENOENT when absent. -/
def fsUnlink (fs : FS) (p : FPath) : Except FsError FS :=
  match fsGet fs p with
  | none => .error .ENOENT
  | some .dir => .error .EISDIR
  | some .inaccessible => .error .EACCES
  | some (.file _) => .ok (fsErase fs p)

/-- The names of the immediate children of directory p (fs.readdir order =
the order of the entries in the state). -/
def childNames (fs : FS) (p : FPath) : List String :=
  fs.filterMap (fun qe =>
    if qe.1.dropLast = p ∧ qe.1 ≠ [] then qe.1.getLast? else none)

/-- fs.readdir on the storage directory. -/
def fsReaddir (fs : FS) (p : FPath) : Except FsError (List String) :=
  match fsGet fs p with
  | none => .error .ENOENT
  | some (.file _) => .error .ENOTDIR
  | some .inaccessible => .error .EACCES
  | some .dir => .ok (childNames fs p)

/-- fs.rename src dst: moves the regular file at src onto dst, silently
replacing a regular file already at dst; fails when src is missing, when
dst is a directory, or when dst's parent directory does not exist. -/
def fsRename (fs : FS) (src dst : FPath) : Except FsError FS :=
  match fsGet fs src with
  | none => .error .ENOENT
  | some .dir => .error .EPERM
  | some .inaccessible => .error .EACCES
  | some (.file c) =>
    match fsGet fs dst with
    | some .dir => .error .EISDIR
    | some .inaccessible => .error .EACCES
    | _ =>
      if fsGet fs dst.dropLast = some .dir then
        .ok (fsSet (fsErase fs src) dst (.file c))
      else .error .ENOENT

/-! ### String and URL primitives used by the handlers -/

/-- JS String.prototype.startsWith. -/
def strStartsWith (s p : String) : Bool :=
  p.data.isPrefixOf s.data

/-- JS String.prototype.split with a one-character separator. -/
def splitChars (sep : Char) : List Char → List (List Char)
  | [] => [[]]
  | c :: rest =>
    let r := splitChars sep rest
    if c = sep then [] :: r
    else
      match r with
      | [] => [[c]]
      | h :: t => (c :: h) :: t

/-- req.url.split('/').pop(): the final '/'-separated segment of the URL. -/
def lastSegment (s : String) : String :=
  ((splitChars '/' s.data).getLastD []).asString

def hexVal (c : Char) : Option Nat :=
  if '0' ≤ c ∧ c ≤ '9' then some (c.toNat - '0'.toNat)
  else if 'a' ≤ c ∧ c ≤ 'f' then some (c.toNat - 'a'.toNat + 10)
  else if 'A' ≤ c ∧ c ≤ 'F' then some (c.toNat - 'A'.toNat + 10)
  else none

/-- Percent-decoding as the ECMAScript Decode algorithm performs it: a '%'
must be followed by two hex digits giving a byte B; a byte with the high
bit set must start a valid UTF-8 sequence whose continuation bytes are
themselves percent-escapes, validated against the strict UTF-8 table
(no 0x80-0xC1 or 0xF5-0xFF leading byte, continuation bytes in 0x80-0xBF
with the 0xE0/0xED/0xF0/0xF4 second-byte restrictions, so no overlong
forms, no surrogates, nothing above U+10FFFF). Any violation makes
decoding fail (JS decodeURIComponent throws URIError). -/
def percentDecode : List Char → Option (List Char)
  | [] => some []
  | '%' :: rest =>
    match rest with
    | c1 :: c2 :: rest2 =>
      match hexVal c1, hexVal c2 with
      | some h1, some l1 =>
        let b1 := 16 * h1 + l1
        if b1 < 0x80 then
          (percentDecode rest2).map (fun cs => Char.ofNat b1 :: cs)
        else if 0xC2 ≤ b1 ∧ b1 ≤ 0xDF then
          match rest2 with
          | '%' :: c3 :: c4 :: rest3 =>
            match hexVal c3, hexVal c4 with
            | some h2, some l2 =>
              let b2 := 16 * h2 + l2
              if 0x80 ≤ b2 ∧ b2 ≤ 0xBF then
                (percentDecode rest3).map (fun cs =>
                  Char.ofNat ((b1 - 0xC0) * 0x40 + (b2 - 0x80)) :: cs)
              else none
            | _, _ => none
          | _ => none
        else if 0xE0 ≤ b1 ∧ b1 ≤ 0xEF then
          match rest2 with
          | '%' :: c3 :: c4 :: rest3 =>
            match hexVal c3, hexVal c4 with
            | some h2, some l2 =>
              let b2 := 16 * h2 + l2
              if (0x80 ≤ b2 ∧ b2 ≤ 0xBF) ∧ (b1 = 0xE0 → 0xA0 ≤ b2) ∧ (b1 = 0xED → b2 ≤ 0x9F) then
                match rest3 with
                | '%' :: c5 :: c6 :: rest4 =>
                  match hexVal c5, hexVal c6 with
                  | some h3, some l3 =>
                    let b3 := 16 * h3 + l3
                    if 0x80 ≤ b3 ∧ b3 ≤ 0xBF then
                      (percentDecode rest4).map (fun cs =>
                        Char.ofNat ((b1 - 0xE0) * 0x1000 + (b2 - 0x80) * 0x40 + (b3 - 0x80)) :: cs)
                    else none
                  | _, _ => none
                | _ => none
              else none
            | _, _ => none
          | _ => none
        else if 0xF0 ≤ b1 ∧ b1 ≤ 0xF4 then
          match rest2 with
          | '%' :: c3 :: c4 :: rest3 =>
            match hexVal c3, hexVal c4 with
            | some h2, some l2 =>
              let b2 := 16 * h2 + l2
              if (0x80 ≤ b2 ∧ b2 ≤ 0xBF) ∧ (b1 = 0xF0 → 0x90 ≤ b2) ∧ (b1 = 0xF4 → b2 ≤ 0x8F) then
                match rest3 with
                | '%' :: c5 :: c6 :: rest4 =>
                  match hexVal c5, hexVal c6 with
                  | some h3, some l3 =>
                    let b3 := 16 * h3 + l3
                    if 0x80 ≤ b3 ∧ b3 ≤ 0xBF then
                      match rest4 with
                      | '%' :: c7 :: c8 :: rest5 =>
                        match hexVal c7, hexVal c8 with
                        | some h4, some l4 =>
                          let b4 := 16 * h4 + l4
                          if 0x80 ≤ b4 ∧ b4 ≤ 0xBF then
                            (percentDecode rest5).map (fun cs =>
                              Char.ofNat ((b1 - 0xF0) * 0x40000 + (b2 - 0x80) * 0x1000 +
                                (b3 - 0x80) * 0x40 + (b4 - 0x80)) :: cs)
                          else none
                        | _, _ => none
                      | _ => none
                    else none
                  | _, _ => none
                | _ => none
              else none
            | _, _ => none
          | _ => none
        else none
      | _, _ => none
    | _ => none
  | c :: rest => (percentDecode rest).map (fun cs => c :: cs)

/-- JS decodeURIComponent, including the strict UTF-8 validation of the
ECMAScript Decode algorithm; none models a thrown URIError. -/
def decodeURIComponent (s : String) : Option String :=
  (percentDecode s.data).map List.asString

/-- Path normalization of Node path.join: fold the segments of the relative
part onto an absolute base, resolving "", "." and "..". -/
def normSegs (acc : List String) : List String → List String
  | [] => acc
  | s :: rest =>
    if s = "" ∨ s = "." then normSegs acc rest
    else if s = ".." then normSegs acc.dropLast rest
    else normSegs (acc ++ [s]) rest

/-- Node path.join(dir, name) for an absolute, already-normalized dir. -/
def pathJoin (dir : FPath) (name : String) : FPath :=
  normSegs dir ((splitChars '/' name.data).map List.asString)

/-- The part of the character list after its last '.', together with the
part before it; none when there is no '.'. -/
def lastDotSplit : List Char → Option (List Char × List Char)
  | [] => none
  | c :: rest =>
    match lastDotSplit rest with
    | some (b, a) => some (c :: b, a)
    | none => if c = '.' then some ([], rest) else none

/-- Node path.extname of the path's basename: ".ext" including the dot,
"" when the basename has no dot or only a leading dot. -/
def extnameOf (p : FPath) : String :=
  let base := (p.getLastD "")
  match lastDotSplit base.data with
  | some (before, aft) => if before = [] then "" else String.mk ('.' :: aft)
  | none => ""

def lowerStr (s : String) : String :=
  String.mk (s.data.map Char.toLower)

/-- The mimeTypes table of the source. -/
def mimeTypes : List (String × String) :=
  [(".html", "text/html"),
   (".js", "application/javascript"),
   (".css", "text/css"),
   (".json", "application/json"),
   (".png", "image/png"),
   (".jpg", "image/jpeg"),
   (".gif", "image/gif"),
   (".svg", "image/svg+xml"),
   (".ico", "image/x-icon")]

def lookupStr (l : List (String × String)) (k : String) : Option String :=
  match l with
  | [] => none
  | (a, b) :: t => if a = k then some b else lookupStr t k

/-! ### Requests, responses and form data -/

structure Request where
  method : String
  url : String
deriving DecidableEq, Repr

/-- One uploaded file as formidable reports it: the temporary path it was
written to and the client-supplied original name. -/
structure FormFile where
  filepath : FPath
  originalFilename : String
deriving DecidableEq, Repr

/-- The value of files.myFile: formidable may report a single file object or
an array of file objects. -/
inductive MyFileVal where
  | single (f : FormFile)
  | arr (l : List FormFile)
deriving DecidableEq, Repr

/-- Outcome of form.parse: a parse error, or the parsed files with the
optional myFile field. -/
inductive FormFiles where
  | err (msg : String)
  | ok (myFile : Option MyFileVal)
deriving DecidableEq, Repr

/-- files.myFile && Array.isArray(files.myFile) ? files.myFile[0] : files.myFile -/
def selectMyFile : Option MyFileVal → Option FormFile
  | none => none
  | some (.single f) => some f
  | some (.arr l) => l.head?

/-- The JSON object shapes the server emits. -/
structure JsonObj where
  success : Bool
  message : Option String := none
  error : Option String := none
  fileName : Option String := none
  files : Option (List String) := none
deriving DecidableEq, Repr

inductive RespBody where
  | empty
  | text (s : String)
  | bytes (b : List Nat)
  | json (j : JsonObj)
deriving DecidableEq, Repr

structure Response where
  status : Nat
  headers : List (String × String)
  body : RespBody
deriving DecidableEq, Repr

/-- Outcome of handling one request: a response and the resulting filesystem
state, or an exception escaping the handler uncaught. -/
inductive HResult where
  | resp (r : Response) (fs : FS)
  | crash (e : String)
deriving DecidableEq, Repr

def HResult.fsAfter (dflt : FS) : HResult → FS
  | .resp _ fs => fs
  | .crash _ => dflt

/-- The CORS headers the server sets on every response before routing. -/
def corsHeaders : List (String × String) :=
  [("Access-Control-Allow-Origin", "*"),
   ("Access-Control-Allow-Methods", "GET, POST, DELETE, OPTIONS"),
   ("Access-Control-Allow-Headers", "Content-Type, X-Requested-With")]

/-- res.writeHead/res.end: the response carries the CORS headers set up
front plus the headers of the writeHead call. -/
def respond (status : Nat) (hdrs : List (String × String)) (body : RespBody) (fs : FS) : HResult :=
  .resp ⟨status, corsHeaders ++ hdrs, body⟩ fs

def jsonCT : List (String × String) := [("Content-Type", "application/json")]

/-- A JSON response as the server builds it. -/
def jsonResp (status : Nat) (j : JsonObj) : Response :=
  ⟨status, corsHeaders ++ jsonCT, .json j⟩

/-- The download headers of a 200 download response. -/
def dlHeaders (fileName : String) : List (String × String) :=
  [("Content-Type", "application/octet-stream"),
   ("Content-Disposition", "attachment; filename=\"" ++ fileName ++ "\"")]

def uploadParseErrJson (m : String) : JsonObj :=
  { success := false, message := some "File upload failed.", error := some m }

def uploadNoFileJson : JsonObj :=
  { success := false, message := some "No file uploaded or file field \"myFile\" not found." }

def uploadSaveErrJson (e : FsError) : JsonObj :=
  { success := false, message := some "Error saving file.", error := some e.message }

def uploadOkJson (n : String) : JsonObj :=
  { success := true, message := some "File uploaded successfully!", fileName := some n }

def filesErrJson : JsonObj :=
  { success := false, message := some "Could not list files." }

def filesOkJson (l : List String) : JsonObj :=
  { success := true, files := some l }

def deleteNotFoundJson : JsonObj :=
  { success := false, message := some "File not found." }

def deleteErrJson (e : FsError) : JsonObj :=
  { success := false, message := some ("Failed to delete file: " ++ e.message) }

def deleteOkJson : JsonObj :=
  { success := true, message := some "File deleted successfully!" }

/-! ### The route handlers -/

/-- path.join(UPLOAD_DIR, name): where the storage directory resolves a name. -/
def storagePath (root : FPath) (n : String) : FPath :=
  pathJoin (root ++ ["uploads"]) n

/-- The final path of an uploaded file: path.join(UPLOAD_DIR, originalFilename). -/
def uploadTarget (root : FPath) (f : FormFile) : FPath :=
  storagePath root f.originalFilename

/-- POST /upload: form.parse callback, myFile selection, fs.rename to
path.join(UPLOAD_DIR, originalFilename). -/
def uploadRoute (root : FPath) (form : FormFiles) (fs : FS) : HResult :=
  match form with
  | .err m => respond 500 jsonCT (.json (uploadParseErrJson m)) fs
  | .ok myFile =>
    match selectMyFile myFile with
    | none => respond 400 jsonCT (.json uploadNoFileJson) fs
    | some f =>
      match fsRename fs f.filepath (uploadTarget root f) with
      | .error e => respond 500 jsonCT (.json (uploadSaveErrJson e)) fs
      | .ok fs2 => respond 200 jsonCT (.json (uploadOkJson f.originalFilename)) fs2

/-- The filter callback of the listing handler: statSync(...).isFile() in a
try/catch that returns false when stat throws. -/
def statFilter (root : FPath) (fs : FS) (n : String) : Bool :=
  match fsStatIsFile fs (storagePath root n) with
  | .ok b => b
  | .error _ => false

/-- GET /files: fs.readdir, then filter by statSync(...).isFile() with a
try/catch that silently drops entries whose stat throws. -/
def filesRoute (root : FPath) (fs : FS) : HResult :=
  match fsReaddir fs (root ++ ["uploads"]) with
  | .error _ => respond 500 jsonCT (.json filesErrJson) fs
  | .ok names =>
    respond 200 jsonCT (.json (filesOkJson (names.filter (statFilter root fs)))) fs

/-- GET /download/<...>: decodeURIComponent of the final URL segment (an
uncaught URIError when malformed), path.join into the storage directory,
fs.access then createReadStream piped to the response. -/
def downloadRoute (root : FPath) (url : String) (fs : FS) : HResult :=
  match decodeURIComponent (lastSegment url) with
  | none => .crash "URIError: URI malformed"
  | some fileName =>
    let filePath := storagePath root fileName
    match fsGet fs filePath with
    | none => respond 404 [("Content-Type", "text/plain")] (.text "File not found.") fs
    | some (.file c) => respond 200 (dlHeaders fileName) (.bytes c) fs
    | some _ => respond 200 (dlHeaders fileName) (.text "Error downloading file.") fs

/-- DELETE /delete/<...>: decodeURIComponent of the final URL segment (an
uncaught URIError when malformed), fs.unlink with ENOENT mapped to 404 and
every other error to 500. -/
def deleteRoute (root : FPath) (url : String) (fs : FS) : HResult :=
  match decodeURIComponent (lastSegment url) with
  | none => .crash "URIError: URI malformed"
  | some fileName =>
    let filePath := storagePath root fileName
    match fsUnlink fs filePath with
    | .error .ENOENT => respond 404 jsonCT (.json deleteNotFoundJson) fs
    | .error e => respond 500 jsonCT (.json (deleteErrJson e)) fs
    | .ok fs2 => respond 200 jsonCT (.json deleteOkJson) fs2

/-- The asset path of the static fallback: '/' maps to /client.html, and the
request path resolves under the public directory. -/
def staticPath (root : FPath) (url : String) : FPath :=
  pathJoin (root ++ ["public"]) (if url = "/" then "/client.html" else url)

/-- mimeTypes[extname.toLowerCase()] with application/octet-stream default. -/
def staticCT (p : FPath) : String :=
  (lookupStr mimeTypes (lowerStr (extnameOf p))).getD "application/octet-stream"

/-- Static fallback: resolve under the public directory, content type from
the lowercased extension with application/octet-stream as default; ENOENT
gives an HTML 404, any other read error a 500 without content type. -/
def staticRoute (root : FPath) (url : String) (fs : FS) : HResult :=
  match fsReadFile fs (staticPath root url) with
  | .error .ENOENT =>
    respond 404 [("Content-Type", "text/html")]
      (.text "<h1>404 Not Found</h1><p>The requested file could not be found.</p>") fs
  | .error e =>
    respond 500 [] (.text ("<h1>500 Internal Server Error: " ++ e.code ++ "</h1>")) fs
  | .ok content =>
    respond 200 [("Content-Type", staticCT (staticPath root url))] (.bytes content) fs

/-- The router: the if/else-if chain of http.createServer's callback, with
root the directory of server.js (so the storage directory is
root/uploads and the public assets directory root/public). -/
def handle (root : FPath) (req : Request) (form : FormFiles) (fs : FS) : HResult :=
  if req.method = "OPTIONS" then respond 204 [] .empty fs
  else if req.url = "/upload" ∧ req.method = "POST" then uploadRoute root form fs
  else if req.url = "/files" ∧ req.method = "GET" then filesRoute root fs
  else if strStartsWith req.url "/download/" = true ∧ req.method = "GET" then
    downloadRoute root req.url fs
  else if strStartsWith req.url "/delete/" = true ∧ req.method = "DELETE" then
    deleteRoute root req.url fs
  else staticRoute root req.url fs

/-! ### Basic lemmas about the filesystem model -/

theorem fsGet_cons (qe : FPath × FSEntry) (rest : FS) (p : FPath) :
    fsGet (qe :: rest) p = if qe.1 = p then some qe.2 else fsGet rest p := rfl

theorem fsErase_cons (qe : FPath × FSEntry) (rest : FS) (p : FPath) :
    fsErase (qe :: rest) p =
      if qe.1 = p then fsErase rest p else qe :: fsErase rest p := by
  by_cases h : qe.1 = p <;> simp [fsErase, List.filter_cons, h]

theorem fsGet_fsErase_self (fs : FS) (p : FPath) :
    fsGet (fsErase fs p) p = none := by
  induction fs with
  | nil => rfl
  | cons qe rest ih =>
    rw [fsErase_cons]
    by_cases h : qe.1 = p
    · rw [if_pos h]; exact ih
    · rw [if_neg h, fsGet_cons, if_neg h]; exact ih

theorem fsGet_fsErase_ne (fs : FS) (p q : FPath) (h : q ≠ p) :
    fsGet (fsErase fs p) q = fsGet fs q := by
  induction fs with
  | nil => rfl
  | cons qe rest ih =>
    rw [fsErase_cons]
    by_cases h1 : qe.1 = p
    · have h2 : ¬ qe.1 = q := by rw [h1]; exact fun he => h he.symm
      rw [if_pos h1, ih, fsGet_cons, if_neg h2]
    · by_cases h2 : qe.1 = q
      · rw [if_neg h1, fsGet_cons, fsGet_cons, if_pos h2, if_pos h2]
      · rw [if_neg h1, fsGet_cons, fsGet_cons, if_neg h2, if_neg h2, ih]

theorem fsGet_fsSet_self (fs : FS) (p : FPath) (e : FSEntry) :
    fsGet (fsSet fs p e) p = some e := by
  rw [fsSet, fsGet_cons, if_pos rfl]

theorem fsGet_fsSet_ne (fs : FS) (p q : FPath) (e : FSEntry) (h : q ≠ p) :
    fsGet (fsSet fs p e) q = fsGet fs q := by
  rw [fsSet, fsGet_cons, if_neg (fun he => h (show q = p from he.symm))]
  exact fsGet_fsErase_ne fs p q h

theorem fsGet_mem (fs : FS) (p : FPath) (e : FSEntry) (h : fsGet fs p = some e) :
    (p, e) ∈ fs := by
  induction fs with
  | nil => simp [fsGet] at h
  | cons qe rest ih =>
    rw [fsGet_cons] at h
    by_cases h1 : qe.1 = p
    · rw [if_pos h1] at h
      have he : qe = (p, e) := by
        obtain ⟨q1, e1⟩ := qe
        simp only at h1
        simp only [Option.some_inj] at h
        rw [h1, h]
      rw [he] at *
      exact List.mem_cons_self _ _
    · rw [if_neg h1] at h
      exact List.mem_cons_of_mem _ (ih h)

theorem mem_fsGet (fs : FS) (p : FPath) (e : FSEntry) (h : (p, e) ∈ fs) :
    ∃ e', fsGet fs p = some e' := by
  induction fs with
  | nil => simp at h
  | cons qe rest ih =>
    by_cases h2 : qe.1 = p
    · exact ⟨qe.2, by rw [fsGet_cons, if_pos h2]⟩
    · rcases List.mem_cons.mp h with h1 | h1
      · exact absurd (congrArg Prod.fst h1).symm h2
      · obtain ⟨e', he'⟩ := ih h1
        exact ⟨e', by rw [fsGet_cons, if_neg h2]; exact he'⟩

/-! ### Lemmas about children and plain path components -/

theorem mem_childNames_iff (fs : FS) (p : FPath) (n : String) :
    n ∈ childNames fs p ↔ ∃ e, (p ++ [n], e) ∈ fs := by
  simp only [childNames, List.mem_filterMap]
  constructor
  · rintro ⟨qe, hqe, hif⟩
    split at hif
    · rename_i hcond
      obtain ⟨hd, hne⟩ := hcond
      have hlast : qe.1.getLast hne = n := by
        have := List.getLast?_eq_getLast qe.1 hne
        rw [this] at hif
        exact Option.some_inj.mp hif
      have : qe.1 = p ++ [n] := by
        conv_lhs => rw [← List.dropLast_append_getLast hne]
        rw [hd, hlast]
      exact ⟨qe.2, by rw [← this]; exact hqe⟩
    · exact absurd hif (by simp)
  · rintro ⟨e, he⟩
    refine ⟨(p ++ [n], e), he, ?_⟩
    rw [if_pos ⟨by simp, by simp⟩]
    simp

/-- A plain file-name component: nonempty, not "." or "..", no '/'. -/
def plainComp (s : String) : Bool :=
  s != "" && s != "." && s != ".." && decide ('/' ∉ s.data)

theorem splitChars_of_not_mem (cs : List Char) (h : '/' ∉ cs) :
    splitChars '/' cs = [cs] := by
  induction cs with
  | nil => rfl
  | cons c rest ih =>
    have hc : c ≠ '/' := fun he => h (he ▸ List.mem_cons_self c rest)
    have hr : '/' ∉ rest := fun hm => h (List.mem_cons_of_mem c hm)
    simp only [splitChars, ih hr, if_neg hc]

theorem pathJoin_plain (dir : FPath) (n : String) (h : plainComp n = true) :
    pathJoin dir n = dir ++ [n] := by
  simp only [plainComp, Bool.and_eq_true, bne_iff_ne, ne_eq, decide_eq_true_eq] at h
  obtain ⟨⟨⟨h1, h2⟩, h3⟩, hnm⟩ := h
  rw [pathJoin, splitChars_of_not_mem n.data hnm]
  have hs : List.asString n.data = n := rfl
  simp only [List.map, hs]
  rw [normSegs, if_neg (by simp [h1, h2]), if_neg h3]
  rfl

/-- Well-formed filesystem: every path component is a plain name, as on a
real filesystem (components are nonempty and contain no '/', and "." and
".." are not stored as entries). -/
def wfFS (fs : FS) : Bool :=
  fs.all (fun qe => qe.1.all plainComp)

theorem wfFS_plain (fs : FS) (hwf : wfFS fs = true) (p : FPath) (e : FSEntry)
    (hm : (p, e) ∈ fs) (c : String) (hc : c ∈ p) : plainComp c = true := by
  rw [wfFS, List.all_eq_true] at hwf
  have := hwf (p, e) hm
  rw [List.all_eq_true] at this
  exact this c hc

/-! ### Routing lemmas -/

theorem handle_options (root : FPath) (u : String) (form : FormFiles) (fs : FS) :
    handle root ⟨"OPTIONS", u⟩ form fs = respond 204 [] .empty fs := rfl

theorem handle_upload (root : FPath) (form : FormFiles) (fs : FS) :
    handle root ⟨"POST", "/upload"⟩ form fs = uploadRoute root form fs := rfl

theorem handle_files (root : FPath) (form : FormFiles) (fs : FS) :
    handle root ⟨"GET", "/files"⟩ form fs = filesRoute root fs := rfl

theorem ne_files_of_startsWith_download (u : String)
    (h : strStartsWith u "/download/" = true) : u ≠ "/files" := by
  rintro rfl
  exact absurd h (by decide)

theorem handle_download (root : FPath) (u : String) (form : FormFiles) (fs : FS)
    (h : strStartsWith u "/download/" = true) :
    handle root ⟨"GET", u⟩ form fs = downloadRoute root u fs := by
  have h1 := ne_files_of_startsWith_download u h
  unfold handle
  simp [h, h1]

theorem handle_delete (root : FPath) (u : String) (form : FormFiles) (fs : FS)
    (h : strStartsWith u "/delete/" = true) :
    handle root ⟨"DELETE", u⟩ form fs = deleteRoute root u fs := by
  unfold handle
  simp [h]

theorem handle_static (root : FPath) (req : Request) (form : FormFiles) (fs : FS)
    (hm : req.method ≠ "OPTIONS")
    (h1 : ¬(req.url = "/upload" ∧ req.method = "POST"))
    (h2 : ¬(req.url = "/files" ∧ req.method = "GET"))
    (h3 : ¬(strStartsWith req.url "/download/" = true ∧ req.method = "GET"))
    (h4 : ¬(strStartsWith req.url "/delete/" = true ∧ req.method = "DELETE")) :
    handle root req form fs = staticRoute root req.url fs := by
  unfold handle
  rw [if_neg hm, if_neg h1, if_neg h2, if_neg h3, if_neg h4]

/-! ### Every route produces a response (given decodable URL segments) -/

def HResult.isResp : HResult → Bool
  | .resp _ _ => true
  | .crash _ => false

theorem isResp_iff (h : HResult) : h.isResp = true ↔ ∃ r fs', h = .resp r fs' := by
  cases h with
  | resp r fs => exact ⟨fun _ => ⟨r, fs, rfl⟩, fun _ => rfl⟩
  | crash e =>
    constructor
    · intro hh
      exact nomatch hh
    · rintro ⟨r, fs', hh⟩
      exact nomatch hh

theorem uploadRoute_isResp (root : FPath) (form : FormFiles) (fs : FS) :
    (uploadRoute root form fs).isResp = true := by
  cases form with
  | err m => rfl
  | ok mf =>
    cases hsel : selectMyFile mf with
    | none => simp [uploadRoute, hsel, respond, HResult.isResp]
    | some f =>
      cases hren : fsRename fs f.filepath (uploadTarget root f) with
      | error e => simp [uploadRoute, hsel, hren, respond, HResult.isResp]
      | ok fs2 => simp [uploadRoute, hsel, hren, respond, HResult.isResp]

theorem filesRoute_isResp (root : FPath) (fs : FS) :
    (filesRoute root fs).isResp = true := by
  cases hrd : fsReaddir fs (root ++ ["uploads"]) with
  | error e => simp [filesRoute, hrd, respond, HResult.isResp]
  | ok names => simp [filesRoute, hrd, respond, HResult.isResp]

theorem downloadRoute_isResp (root : FPath) (u : String) (fs : FS)
    (h : (decodeURIComponent (lastSegment u)).isSome = true) :
    (downloadRoute root u fs).isResp = true := by
  obtain ⟨n, hn⟩ := Option.isSome_iff_exists.mp h
  cases hget : fsGet fs (storagePath root n) with
  | none => simp [downloadRoute, hn, hget, respond, HResult.isResp]
  | some e => cases e <;> simp [downloadRoute, hn, hget, respond, HResult.isResp]

theorem deleteRoute_isResp (root : FPath) (u : String) (fs : FS)
    (h : (decodeURIComponent (lastSegment u)).isSome = true) :
    (deleteRoute root u fs).isResp = true := by
  obtain ⟨n, hn⟩ := Option.isSome_iff_exists.mp h
  cases hun : fsUnlink fs (storagePath root n) with
  | error e => cases e <;> simp [deleteRoute, hn, hun, respond, HResult.isResp]
  | ok fs2 => simp [deleteRoute, hn, hun, respond, HResult.isResp]

theorem staticRoute_isResp (root : FPath) (u : String) (fs : FS) :
    (staticRoute root u fs).isResp = true := by
  cases hrf : fsReadFile fs (staticPath root u) with
  | error e => cases e <;> simp [staticRoute, hrf, respond, HResult.isResp]
  | ok c => simp [staticRoute, hrf, respond, HResult.isResp]

/-! ### Claim C3 -/

/-- C3 counterexample: a malformed percent-encoding in the final segment of
a /download/ or /delete/ path makes decodeURIComponent throw, and nothing in
the handler catches it: the URIError escapes the handler, so the claim that
every error is converted to an HTTP status and body fails. This covers both
failure modes of the ECMAScript Decode algorithm: escapes that are not two
hex digits (%, %zz) and hex escapes whose bytes are not valid UTF-8 (a lone
lead byte %C3, the invalid byte %FF, and a lead byte with a non-continuation
escape %C3%28) — while a valid sequence such as %C3%A9 still decodes. -/
theorem malformed_uri_crashes :
    handle ["srv"] ⟨"GET", "/download/%"⟩ (.ok none) [] = .crash "URIError: URI malformed"
    ∧ handle ["srv"] ⟨"DELETE", "/delete/%zz"⟩ (.ok none) [] = .crash "URIError: URI malformed"
    ∧ handle ["srv"] ⟨"GET", "/download/%C3"⟩ (.ok none) [] = .crash "URIError: URI malformed"
    ∧ handle ["srv"] ⟨"GET", "/download/%FF"⟩ (.ok none) [] = .crash "URIError: URI malformed"
    ∧ handle ["srv"] ⟨"DELETE", "/delete/%C3%28"⟩ (.ok none) [] = .crash "URIError: URI malformed"
    ∧ decodeURIComponent "%C3%A9" = some "é" :=
  ⟨rfl, rfl, rfl, rfl, rfl, rfl⟩

/-- C3 (amended): every request whose handling does not hit a URIError is
answered with an HTTP status plus body: whenever the request is not a
/download/ (GET) or /delete/ (DELETE) request with a malformed
percent-encoding in its final path segment, the handler returns a response;
only that URIError propagates out of the handler uncaught. -/
theorem errors_become_responses (root : FPath) (req : Request) (form : FormFiles) (fs : FS)
    (h : (strStartsWith req.url "/download/" = true ∧ req.method = "GET") ∨
         (strStartsWith req.url "/delete/" = true ∧ req.method = "DELETE") →
         (decodeURIComponent (lastSegment req.url)).isSome = true) :
    ∃ r fs', handle root req form fs = .resp r fs' := by
  rw [← isResp_iff]
  unfold handle
  split
  · rfl
  split
  · exact uploadRoute_isResp root form fs
  split
  · exact filesRoute_isResp root fs
  split
  · rename_i hcond
    exact downloadRoute_isResp root req.url fs (h (Or.inl hcond))
  split
  · rename_i hcond
    exact deleteRoute_isResp root req.url fs (h (Or.inr hcond))
  exact staticRoute_isResp root req.url fs

/-- C3 witness: a GET /files request on an empty filesystem (readdir fails,
converted to a 500 JSON response) is answered with a response. -/
theorem errors_become_responses_witness :
    ∃ r fs', handle ["srv"] ⟨"GET", "/files"⟩ (.ok none) [] = .resp r fs' :=
  errors_become_responses ["srv"] ⟨"GET", "/files"⟩ (.ok none) [] (by decide)

/-! ### Claim C10 -/

/-- A filesystem with a file outside the storage directory. -/
def fsOutside : FS :=
  [(["srv"], .dir), (["srv", "uploads"], .dir),
   (["srv", "secret.txt"], .file [115, 101, 99])]

/-- C10: the download and delete handlers take the percent-decoded final
URL segment and path.join it into the storage directory without
sanitization, so a segment decoding to "../secret.txt" resolves outside
storage: GET /download/..%2Fsecret.txt reads, and DELETE
/delete/..%2Fsecret.txt unlinks, the file srv/secret.txt that lies outside
srv/uploads. -/
theorem path_traversal_escapes_storage :
    decodeURIComponent (lastSegment "/download/..%2Fsecret.txt") = some "../secret.txt"
    ∧ storagePath ["srv"] "../secret.txt" = ["srv", "secret.txt"]
    ∧ List.isPrefixOf ["srv", "uploads"] (storagePath ["srv"] "../secret.txt") = false
    ∧ handle ["srv"] ⟨"GET", "/download/..%2Fsecret.txt"⟩ (.ok none) fsOutside =
        .resp ⟨200, corsHeaders ++ dlHeaders "../secret.txt", .bytes [115, 101, 99]⟩ fsOutside
    ∧ handle ["srv"] ⟨"DELETE", "/delete/..%2Fsecret.txt"⟩ (.ok none) fsOutside =
        .resp (jsonResp 200 deleteOkJson) (fsErase fsOutside ["srv", "secret.txt"])
    ∧ fsGet (fsErase fsOutside ["srv", "secret.txt"]) ["srv", "secret.txt"] = none :=
  ⟨rfl, rfl, rfl, rfl, rfl, rfl⟩

/-! ### Claim C4 -/

/-- The file the upload handler works with, if any: none on parse error and
when files.myFile yields no file. -/
def selectForm : FormFiles → Option FormFile
  | .err _ => none
  | .ok mf => selectMyFile mf

/-- A JSON body with success:false. -/
def failJson (b : RespBody) : Prop :=
  ∃ j, b = .json j ∧ j.success = false

theorem status_clash {j : JsonObj} {a b : Nat} (h : (jsonResp a j).status = b)
    (hne : a ≠ b) : False := hne h

theorem jsonResp_ne_of_status (s1 s2 : Nat) (j1 j2 : JsonObj) (h : s1 ≠ s2) :
    jsonResp s1 j1 ≠ jsonResp s2 j2 := by
  intro he
  exact h (congrArg Response.status he)

/-- C4: POST /upload answers 500 JSON success:false (with a diagnostic) iff
parsing failed or the move to the final path failed; it answers 400 JSON
success:false — distinct from every 500 response — iff parsing succeeded but
no file is present under myFile; otherwise it answers 200 JSON success:true
whose fileName equals the stored file's original name. -/
theorem upload_error_taxonomy (root : FPath) (form : FormFiles) (fs : FS) :
    ∃ r fsOut, handle root ⟨"POST", "/upload"⟩ form fs = .resp r fsOut
    ∧ ((r.status = 500 ∧ failJson r.body) ↔
        (∃ m, form = .err m) ∨
        (∃ f e, selectForm form = some f ∧
          fsRename fs f.filepath (uploadTarget root f) = .error e))
    ∧ ((r.status = 400 ∧ failJson r.body) ↔
        (∃ mf, form = .ok mf ∧ selectMyFile mf = none))
    ∧ (r.status = 400 → ∀ m, r ≠ jsonResp 500 (uploadParseErrJson m))
    ∧ (r.status = 400 → ∀ e, r ≠ jsonResp 500 (uploadSaveErrJson e))
    ∧ (∀ f fs2, selectForm form = some f →
        fsRename fs f.filepath (uploadTarget root f) = .ok fs2 →
        r = jsonResp 200 (uploadOkJson f.originalFilename) ∧ fsOut = fs2)
    ∧ (r.status = 200 ↔
        ∃ f fs2, selectForm form = some f ∧
          fsRename fs f.filepath (uploadTarget root f) = .ok fs2) := by
  rw [handle_upload]
  cases form with
  | err m =>
    refine ⟨jsonResp 500 (uploadParseErrJson m), fs, rfl, ?_, ?_, ?_, ?_, ?_, ?_⟩
    · constructor
      · intro _
        exact Or.inl ⟨m, rfl⟩
      · intro _
        exact ⟨rfl, uploadParseErrJson m, rfl, rfl⟩
    · constructor
      · rintro ⟨hs, -⟩
        exact (status_clash hs (by decide)).elim
      · rintro ⟨mf, hmf, -⟩
        exact nomatch hmf
    · intro hs
      exact (status_clash hs (by decide)).elim
    · intro hs
      exact (status_clash hs (by decide)).elim
    · rintro f fs2 hsel -
      exact nomatch hsel
    · constructor
      · intro hs
        exact (status_clash hs (by decide)).elim
      · rintro ⟨f, fs2, hsel, -⟩
        exact nomatch hsel
  | ok mf =>
    cases hsel : selectMyFile mf with
    | none =>
      refine ⟨jsonResp 400 uploadNoFileJson, fs, ?_, ?_, ?_, ?_, ?_, ?_, ?_⟩
      · simp [uploadRoute, hsel, respond, jsonResp]
      · constructor
        · rintro ⟨hs, -⟩
          exact (status_clash hs (by decide)).elim
        · rintro (⟨m, hm⟩ | ⟨f, e, hf, -⟩)
          · exact nomatch hm
          · rw [selectForm, hsel] at hf
            exact nomatch hf
      · constructor
        · intro _
          exact ⟨mf, rfl, hsel⟩
        · intro _
          exact ⟨rfl, uploadNoFileJson, rfl, rfl⟩
      · intro _ m
        exact jsonResp_ne_of_status 400 500 _ _ (by decide)
      · intro _ e
        exact jsonResp_ne_of_status 400 500 _ _ (by decide)
      · rintro f fs2 hf -
        rw [selectForm, hsel] at hf
        exact nomatch hf
      · constructor
        · intro hs
          exact (status_clash hs (by decide)).elim
        · rintro ⟨f, fs2, hf, -⟩
          rw [selectForm, hsel] at hf
          exact nomatch hf
    | some f =>
      cases hren : fsRename fs f.filepath (uploadTarget root f) with
      | error e =>
        refine ⟨jsonResp 500 (uploadSaveErrJson e), fs, ?_, ?_, ?_, ?_, ?_, ?_, ?_⟩
        · simp [uploadRoute, hsel, hren, respond, jsonResp]
        · constructor
          · intro _
            exact Or.inr ⟨f, e, by rw [selectForm, hsel], hren⟩
          · intro _
            exact ⟨rfl, uploadSaveErrJson e, rfl, rfl⟩
        · constructor
          · rintro ⟨hs, -⟩
            exact (status_clash hs (by decide)).elim
          · rintro ⟨mf', hmf, hsel'⟩
            have hm : mf = mf' := by injection hmf
            rw [← hm, hsel] at hsel'
            exact nomatch hsel'
        · intro hs
          exact (status_clash hs (by decide)).elim
        · intro hs
          exact (status_clash hs (by decide)).elim
        · rintro f' fs2 hf hren'
          rw [selectForm, hsel] at hf
          have hff : f = f' := by injection hf
          rw [← hff] at hren'
          rw [hren'] at hren
          exact nomatch hren
        · constructor
          · intro hs
            exact (status_clash hs (by decide)).elim
          · rintro ⟨f', fs2, hf, hren'⟩
            rw [selectForm, hsel] at hf
            have hff : f = f' := by injection hf
            rw [← hff] at hren'
            rw [hren'] at hren
            exact nomatch hren
      | ok fs2 =>
        refine ⟨jsonResp 200 (uploadOkJson f.originalFilename), fs2, ?_, ?_, ?_, ?_, ?_, ?_, ?_⟩
        · simp [uploadRoute, hsel, hren, respond, jsonResp]
        · constructor
          · rintro ⟨hs, -⟩
            exact (status_clash hs (by decide)).elim
          · rintro (⟨m, hm⟩ | ⟨f', e, hf, hren'⟩)
            · exact nomatch hm
            · rw [selectForm, hsel] at hf
              have hff : f = f' := by injection hf
              rw [← hff] at hren'
              rw [hren'] at hren
              exact nomatch hren
        · constructor
          · rintro ⟨hs, -⟩
            exact (status_clash hs (by decide)).elim
          · rintro ⟨mf', hmf, hsel'⟩
            have hm : mf = mf' := by injection hmf
            rw [← hm, hsel] at hsel'
            exact nomatch hsel'
        · intro hs
          exact (status_clash hs (by decide)).elim
        · intro hs
          exact (status_clash hs (by decide)).elim
        · rintro f' fs2' hf hren'
          rw [selectForm, hsel] at hf
          have hff : f = f' := by injection hf
          rw [← hff] at hren'
          rw [hren'] at hren
          have hfs : fs2' = fs2 := by injection hren
          rw [hff, hfs]
          exact ⟨rfl, rfl⟩
        · constructor
          · intro _
            exact ⟨f, fs2, by rw [selectForm, hsel], hren⟩
          · intro _
            rfl

/-- C4 witness: a concrete successful upload stores tmp1's bytes under
hello.txt and answers 200 success:true with fileName hello.txt. -/
theorem upload_error_taxonomy_witness :
    ∃ r fsOut,
      handle ["srv"] ⟨"POST", "/upload"⟩
        (.ok (some (.single ⟨["srv", "uploads", "tmp1"], "hello.txt"⟩)))
        [(["srv"], .dir), (["srv", "uploads"], .dir),
         (["srv", "uploads", "tmp1"], .file [97, 98, 99])] = .resp r fsOut
      ∧ r = jsonResp 200 (uploadOkJson "hello.txt") := by
  obtain ⟨r, fsOut, h1, -, -, -, -, h5, -⟩ :=
    upload_error_taxonomy ["srv"]
      (.ok (some (.single ⟨["srv", "uploads", "tmp1"], "hello.txt"⟩)))
      [(["srv"], .dir), (["srv", "uploads"], .dir),
       (["srv", "uploads", "tmp1"], .file [97, 98, 99])]
  obtain ⟨hr, -⟩ := h5 ⟨["srv", "uploads", "tmp1"], "hello.txt"⟩ _ rfl rfl
  exact ⟨r, fsOut, h1, hr⟩

/-! ### Claim C9 -/

/-- The three CORS headers with the exact values the server sets. -/
def corsOK (r : Response) : Prop :=
  ("Access-Control-Allow-Origin", "*") ∈ r.headers
  ∧ ("Access-Control-Allow-Methods", "GET, POST, DELETE, OPTIONS") ∈ r.headers
  ∧ ("Access-Control-Allow-Headers", "Content-Type, X-Requested-With") ∈ r.headers

theorem respond_corsOK (status : Nat) (hdrs : List (String × String)) (body : RespBody)
    (fs : FS) (r : Response) (fs' : FS) (h : respond status hdrs body fs = .resp r fs') :
    corsOK r := by
  rw [respond] at h
  injection h with h1 h2
  rw [← h1]
  refine ⟨?_, ?_, ?_⟩ <;> simp [corsHeaders]

theorem uploadRoute_corsOK (root : FPath) (form : FormFiles) (fs : FS) (r : Response)
    (fs' : FS) (h : uploadRoute root form fs = .resp r fs') : corsOK r := by
  cases form with
  | err m => exact respond_corsOK _ _ _ _ _ _ h
  | ok mf =>
    rw [uploadRoute] at h
    cases hsel : selectMyFile mf with
    | none =>
      rw [hsel] at h
      exact respond_corsOK _ _ _ _ _ _ h
    | some f =>
      rw [hsel] at h
      simp only at h
      cases hren : fsRename fs f.filepath (uploadTarget root f) with
      | error e =>
        rw [hren] at h
        exact respond_corsOK _ _ _ _ _ _ h
      | ok fs2 =>
        rw [hren] at h
        exact respond_corsOK _ _ _ _ _ _ h

theorem filesRoute_corsOK (root : FPath) (fs : FS) (r : Response) (fs' : FS)
    (h : filesRoute root fs = .resp r fs') : corsOK r := by
  rw [filesRoute] at h
  cases hrd : fsReaddir fs (root ++ ["uploads"]) with
  | error e =>
    rw [hrd] at h
    exact respond_corsOK _ _ _ _ _ _ h
  | ok names =>
    rw [hrd] at h
    exact respond_corsOK _ _ _ _ _ _ h

theorem downloadRoute_corsOK (root : FPath) (u : String) (fs : FS) (r : Response)
    (fs' : FS) (h : downloadRoute root u fs = .resp r fs') : corsOK r := by
  rw [downloadRoute] at h
  cases hdec : decodeURIComponent (lastSegment u) with
  | none =>
    rw [hdec] at h
    exact nomatch h
  | some n =>
    rw [hdec] at h
    simp only at h
    cases hget : fsGet fs (storagePath root n) with
    | none =>
      rw [hget] at h
      exact respond_corsOK _ _ _ _ _ _ h
    | some e =>
      rw [hget] at h
      cases e <;> exact respond_corsOK _ _ _ _ _ _ h

theorem deleteRoute_corsOK (root : FPath) (u : String) (fs : FS) (r : Response)
    (fs' : FS) (h : deleteRoute root u fs = .resp r fs') : corsOK r := by
  rw [deleteRoute] at h
  cases hdec : decodeURIComponent (lastSegment u) with
  | none =>
    rw [hdec] at h
    exact nomatch h
  | some n =>
    rw [hdec] at h
    simp only at h
    cases hun : fsUnlink fs (storagePath root n) with
    | error e =>
      rw [hun] at h
      cases e <;> exact respond_corsOK _ _ _ _ _ _ h
    | ok fs2 =>
      rw [hun] at h
      exact respond_corsOK _ _ _ _ _ _ h

theorem staticRoute_corsOK (root : FPath) (u : String) (fs : FS) (r : Response)
    (fs' : FS) (h : staticRoute root u fs = .resp r fs') : corsOK r := by
  rw [staticRoute] at h
  cases hrf : fsReadFile fs (staticPath root u) with
  | error e =>
    rw [hrf] at h
    cases e <;> exact respond_corsOK _ _ _ _ _ _ h
  | ok c =>
    rw [hrf] at h
    exact respond_corsOK _ _ _ _ _ _ h

/-- C9: every response the server produces, for every request, route and
outcome, carries Access-Control-Allow-Origin: *,
Access-Control-Allow-Methods: GET, POST, DELETE, OPTIONS and
Access-Control-Allow-Headers: Content-Type, X-Requested-With. -/
theorem cors_on_every_response (root : FPath) (req : Request) (form : FormFiles)
    (fs : FS) (r : Response) (fs' : FS) (h : handle root req form fs = .resp r fs') :
    corsOK r := by
  unfold handle at h
  split at h
  · exact respond_corsOK _ _ _ _ _ _ h
  split at h
  · exact uploadRoute_corsOK _ _ _ _ _ h
  split at h
  · exact filesRoute_corsOK _ _ _ _ h
  split at h
  · exact downloadRoute_corsOK _ _ _ _ _ h
  split at h
  · exact deleteRoute_corsOK _ _ _ _ _ h
  exact staticRoute_corsOK _ _ _ _ _ h

/-- C9 witness: the 204 OPTIONS response carries the three CORS headers. -/
theorem cors_on_every_response_witness :
    corsOK ⟨204, corsHeaders ++ [], .empty⟩ :=
  cors_on_every_response ["srv"] ⟨"OPTIONS", "/"⟩ (.ok none) [] _ [] rfl

/-! ### Claim C6 -/

/-- A demo filesystem with a file, a sub-directory and an uninspectable
entry inside the storage directory. -/
def fsDemo : FS :=
  [(["srv"], .dir), (["srv", "uploads"], .dir),
   (["srv", "uploads", "a.txt"], .file [9, 8]),
   (["srv", "uploads", "sub"], .dir),
   (["srv", "uploads", "ghost"], .inaccessible)]

/-- C6 counterexample: storage/d is present (as a directory), yet the
response to GET /download/d, although 200 with the attachment headers, has
the stream-error text as body, not the bytes of any file — so "if present
... the body is the file's bytes" fails as stated. -/
theorem download_dir_counterexample :
    fsGet fsDemo ["srv", "uploads", "sub"] = some .dir
    ∧ storagePath ["srv"] "sub" = ["srv", "uploads", "sub"]
    ∧ handle ["srv"] ⟨"GET", "/download/sub"⟩ (.ok none) fsDemo =
        .resp ⟨200, corsHeaders ++ dlHeaders "sub", .text "Error downloading file."⟩ fsDemo :=
  ⟨rfl, rfl, rfl⟩

/-- C6 (amended): for GET /download/{name} with name the percent-decoded
final path segment, an absent storage/<name> gives a 404 plain-text
response; a regular file gives 200 with Content-Type
application/octet-stream, Content-Disposition attachment; filename="name"
and the file's bytes as body; a present entry that is not a regular file
(directory or uninspectable) still gets the 200 header block but an
error-text body instead of file bytes. -/
theorem download_postcondition (root : FPath) (u N : String) (form : FormFiles) (fs : FS)
    (hu : strStartsWith u "/download/" = true)
    (hdec : decodeURIComponent (lastSegment u) = some N) :
    (fsGet fs (storagePath root N) = none →
      handle root ⟨"GET", u⟩ form fs =
        .resp ⟨404, corsHeaders ++ [("Content-Type", "text/plain")], .text "File not found."⟩ fs)
    ∧ (∀ c, fsGet fs (storagePath root N) = some (.file c) →
      handle root ⟨"GET", u⟩ form fs =
        .resp ⟨200, corsHeaders ++ dlHeaders N, .bytes c⟩ fs)
    ∧ ((fsGet fs (storagePath root N) = some .dir ∨
        fsGet fs (storagePath root N) = some .inaccessible) →
      handle root ⟨"GET", u⟩ form fs =
        .resp ⟨200, corsHeaders ++ dlHeaders N, .text "Error downloading file."⟩ fs) := by
  rw [handle_download root u form fs hu]
  refine ⟨?_, ?_, ?_⟩
  · intro hget
    rw [downloadRoute, hdec]
    simp only [hget]
    rfl
  · intro c hget
    rw [downloadRoute, hdec]
    simp only [hget]
    rfl
  · rintro (hget | hget) <;> (rw [downloadRoute, hdec]; simp only [hget]; rfl)

/-- C6 witness: downloading the stored file a.txt returns its bytes with
the attachment headers. -/
theorem download_postcondition_witness :
    handle ["srv"] ⟨"GET", "/download/a.txt"⟩ (.ok none) fsDemo =
      .resp ⟨200, corsHeaders ++ dlHeaders "a.txt", .bytes [9, 8]⟩ fsDemo :=
  (download_postcondition ["srv"] "/download/a.txt" "a.txt" (.ok none) fsDemo
    rfl rfl).2.1 [9, 8] rfl

/-! ### Claim C5 -/

/-- C5: DELETE /delete/{name} (name the percent-decoded final segment):
absent file gives a 404 JSON not-found failure, distinct from every 500
generic failure; a present entry that cannot be unlinked (directory or
uninspectable, i.e. a non-ENOENT filesystem error) gives a 500 JSON failure
carrying the error message; unlinking a regular file gives 200 JSON
success:true and the name no longer appears in a subsequent GET /files
listing. -/
theorem delete_error_taxonomy (root : FPath) (u N : String) (form form2 : FormFiles) (fs : FS)
    (hu : strStartsWith u "/delete/" = true)
    (hdec : decodeURIComponent (lastSegment u) = some N)
    (hplain : storagePath root N = root ++ ["uploads", N])
    (hdir : fsGet fs (root ++ ["uploads"]) = some .dir) :
    (fsGet fs (root ++ ["uploads", N]) = none →
      handle root ⟨"DELETE", u⟩ form fs = .resp (jsonResp 404 deleteNotFoundJson) fs)
    ∧ (∀ e, jsonResp 404 deleteNotFoundJson ≠ jsonResp 500 (deleteErrJson e))
    ∧ (fsGet fs (root ++ ["uploads", N]) = some .dir →
      handle root ⟨"DELETE", u⟩ form fs =
        .resp (jsonResp 500 (deleteErrJson .EISDIR)) fs)
    ∧ (fsGet fs (root ++ ["uploads", N]) = some .inaccessible →
      handle root ⟨"DELETE", u⟩ form fs =
        .resp (jsonResp 500 (deleteErrJson .EACCES)) fs)
    ∧ (∀ c, fsGet fs (root ++ ["uploads", N]) = some (.file c) →
      handle root ⟨"DELETE", u⟩ form fs =
        .resp (jsonResp 200 deleteOkJson) (fsErase fs (root ++ ["uploads", N]))
      ∧ ∃ L, handle root ⟨"GET", "/files"⟩ form2 (fsErase fs (root ++ ["uploads", N])) =
          .resp (jsonResp 200 (filesOkJson L)) (fsErase fs (root ++ ["uploads", N]))
          ∧ N ∉ L) := by
  have hroute : handle root ⟨"DELETE", u⟩ form fs = deleteRoute root u fs :=
    handle_delete root u form fs hu
  have hne : root ++ ["uploads"] ≠ root ++ ["uploads", N] := by
    intro he
    have := congrArg List.length he
    simp at this
  refine ⟨?_, ?_, ?_, ?_, ?_⟩
  · intro hget
    rw [hroute, deleteRoute, hdec]
    simp only [hplain, fsUnlink, hget]
    rfl
  · intro e
    exact jsonResp_ne_of_status 404 500 _ _ (by decide)
  · intro hget
    rw [hroute, deleteRoute, hdec]
    simp only [hplain, fsUnlink, hget]
    rfl
  · intro hget
    rw [hroute, deleteRoute, hdec]
    simp only [hplain, fsUnlink, hget]
    rfl
  · intro c hget
    constructor
    · rw [hroute, deleteRoute, hdec]
      simp only [hplain, fsUnlink, hget]
      rfl
    · have hget' : fsGet (fsErase fs (root ++ ["uploads", N])) (root ++ ["uploads"]) = some .dir := by
        rw [fsGet_fsErase_ne fs (root ++ ["uploads", N]) (root ++ ["uploads"]) hne]
        exact hdir
      refine ⟨(childNames (fsErase fs (root ++ ["uploads", N])) (root ++ ["uploads"])).filter
          (statFilter root (fsErase fs (root ++ ["uploads", N]))), ?_, ?_⟩
      · rw [handle_files, filesRoute]
        simp only [fsReaddir, hget']
        rfl
      · intro hmem
        have hpred := (List.mem_filter.mp hmem).2
        rw [statFilter, hplain] at hpred
        rw [fsStatIsFile, fsGet_fsErase_self] at hpred
        exact nomatch hpred

/-- C5 witness: deleting the stored file a.txt answers 200 success:true and
a.txt is gone from the subsequent listing. -/
theorem delete_error_taxonomy_witness :
    handle ["srv"] ⟨"DELETE", "/delete/a.txt"⟩ (.ok none) fsDemo =
      .resp (jsonResp 200 deleteOkJson) (fsErase fsDemo ["srv", "uploads", "a.txt"])
    ∧ ∃ L, handle ["srv"] ⟨"GET", "/files"⟩ (.ok none) (fsErase fsDemo ["srv", "uploads", "a.txt"]) =
        .resp (jsonResp 200 (filesOkJson L)) (fsErase fsDemo ["srv", "uploads", "a.txt"])
        ∧ "a.txt" ∉ L :=
  (delete_error_taxonomy ["srv"] "/delete/a.txt" "a.txt" (.ok none) (.ok none) fsDemo
    rfl rfl rfl rfl).2.2.2.2 [9, 8] rfl

/-! ### Claim C7 -/

theorem statFilter_eq_true_iff (root : FPath) (fs : FS) (n : String)
    (hsp : storagePath root n = root ++ ["uploads", n]) :
    statFilter root fs n = true ↔
      ∃ c, fsGet fs (root ++ ["uploads", n]) = some (.file c) := by
  rw [statFilter, hsp, fsStatIsFile]
  cases hget : fsGet fs (root ++ ["uploads", n]) with
  | none => simp [hget]
  | some e => cases e <;> simp [hget]

/-- C7: GET /files returns exactly the names of the storage-directory
entries that are regular files: directories and uninspectable entries
(stat failure) are silently excluded, and their presence does not abort the
listing, which still answers 200 success:true. -/
theorem files_listing (root : FPath) (form : FormFiles) (fs : FS)
    (hwf : wfFS fs = true)
    (hdir : fsGet fs (root ++ ["uploads"]) = some .dir) :
    ∃ L, handle root ⟨"GET", "/files"⟩ form fs = .resp (jsonResp 200 (filesOkJson L)) fs
      ∧ ∀ n, n ∈ L ↔ ∃ c, fsGet fs (root ++ ["uploads", n]) = some (.file c) := by
  have happ : ∀ n : String, root ++ ["uploads"] ++ [n] = root ++ ["uploads", n] := by
    intro n
    rw [List.append_assoc]
    rfl
  refine ⟨(childNames fs (root ++ ["uploads"])).filter (statFilter root fs), ?_, ?_⟩
  · rw [handle_files, filesRoute]
    simp only [fsReaddir, hdir]
    rfl
  · intro n
    constructor
    · intro hmem
      obtain ⟨hchild, hpred⟩ := List.mem_filter.mp hmem
      obtain ⟨e, he⟩ := (mem_childNames_iff fs (root ++ ["uploads"]) n).mp hchild
      rw [happ n] at he
      have hplainn : plainComp n = true :=
        wfFS_plain fs hwf (root ++ ["uploads", n]) e he n (by simp)
      have hsp : storagePath root n = root ++ ["uploads", n] := by
        rw [storagePath, pathJoin_plain _ _ hplainn, happ n]
      exact (statFilter_eq_true_iff root fs n hsp).mp hpred
    · rintro ⟨c, hget⟩
      have hm : (root ++ ["uploads", n], FSEntry.file c) ∈ fs := fsGet_mem _ _ _ hget
      have hplainn : plainComp n = true :=
        wfFS_plain fs hwf (root ++ ["uploads", n]) (.file c) hm n (by simp)
      have hsp : storagePath root n = root ++ ["uploads", n] := by
        rw [storagePath, pathJoin_plain _ _ hplainn, happ n]
      refine List.mem_filter.mpr ⟨?_, ?_⟩
      · refine (mem_childNames_iff fs (root ++ ["uploads"]) n).mpr ⟨.file c, ?_⟩
        rw [happ n]
        exact hm
      · exact (statFilter_eq_true_iff root fs n hsp).mpr ⟨c, hget⟩

/-- C7 witness: on a storage directory holding a file, a sub-directory and
an uninspectable entry, the listing contains the file and excludes the
other two. -/
theorem files_listing_witness :
    ∃ L, handle ["srv"] ⟨"GET", "/files"⟩ (.ok none) fsDemo =
        .resp (jsonResp 200 (filesOkJson L)) fsDemo
      ∧ "a.txt" ∈ L ∧ "sub" ∉ L ∧ "ghost" ∉ L := by
  obtain ⟨L, h1, h2⟩ := files_listing ["srv"] (.ok none) fsDemo rfl rfl
  refine ⟨L, h1, ?_, ?_, ?_⟩
  · exact (h2 "a.txt").mpr ⟨[9, 8], rfl⟩
  · intro hm
    obtain ⟨c, hc⟩ := (h2 "sub").mp hm
    simp only [List.cons_append, List.nil_append] at hc
    rw [show fsGet fsDemo ["srv", "uploads", "sub"] = some .dir from rfl] at hc
    simp at hc
  · intro hm
    obtain ⟨c, hc⟩ := (h2 "ghost").mp hm
    simp only [List.cons_append, List.nil_append] at hc
    rw [show fsGet fsDemo ["srv", "uploads", "ghost"] = some .inaccessible from rfl] at hc
    simp at hc

/-! ### Claims C1 and C2: upload success and round-trip -/

theorem fsRename_success (fs : FS) (src dst : FPath) (B : List Nat)
    (hsrc : fsGet fs src = some (.file B))
    (hdst : fsGet fs dst ≠ some .dir)
    (hdst2 : fsGet fs dst ≠ some .inaccessible)
    (hparent : fsGet fs dst.dropLast = some .dir) :
    fsRename fs src dst = .ok (fsSet (fsErase fs src) dst (.file B)) := by
  rw [fsRename]
  simp only [hsrc]
  cases hd : fsGet fs dst with
  | none => exact if_pos hparent
  | some e =>
    cases e with
    | file c => exact if_pos hparent
    | dir => exact absurd hd hdst
    | inaccessible => exact absurd hd hdst2

theorem upload_success (root : FPath) (mf : Option MyFileVal) (f : FormFile)
    (fs : FS) (B : List Nat)
    (hsel : selectMyFile mf = some f)
    (htmp : fsGet fs f.filepath = some (.file B))
    (hdst : fsGet fs (uploadTarget root f) ≠ some .dir)
    (hdst2 : fsGet fs (uploadTarget root f) ≠ some .inaccessible)
    (hparent : fsGet fs (uploadTarget root f).dropLast = some .dir) :
    handle root ⟨"POST", "/upload"⟩ (.ok mf) fs =
      .resp (jsonResp 200 (uploadOkJson f.originalFilename))
        (fsSet (fsErase fs f.filepath) (uploadTarget root f) (.file B)) := by
  rw [handle_upload, uploadRoute]
  simp only [hsel, fsRename_success fs f.filepath (uploadTarget root f) B htmp hdst hdst2 hparent]
  rfl

/-- A filesystem holding only the formidable temp file of an upload. -/
def fsTmp : FS :=
  [(["srv"], .dir), (["srv", "uploads"], .dir),
   (["srv", "uploads", "tmp1"], .file [104])]

/-- C1 counterexample: for the name ".." the round trip fails: the upload
answers 500 (renaming onto the parent directory fails) and GET /download/..
answers 200 with the stream-error text as body — not the uploaded byte
[104]. So the round trip does not hold for every name N. -/
theorem roundtrip_counterexample :
    handle ["srv"] ⟨"POST", "/upload"⟩
        (.ok (some (.single ⟨["srv", "uploads", "tmp1"], ".."⟩))) fsTmp =
      .resp (jsonResp 500 (uploadSaveErrJson .EISDIR)) fsTmp
    ∧ handle ["srv"] ⟨"GET", "/download/.."⟩ (.ok none) fsTmp =
      .resp ⟨200, corsHeaders ++ dlHeaders "..", .text "Error downloading file."⟩ fsTmp
    ∧ (RespBody.text "Error downloading file.") ≠ .bytes [104] :=
  ⟨rfl, rfl, by decide⟩

/-- C1 (amended): for every byte sequence B and every name N that is a
plain file name (a single path component, so that it resolves to
storage/<N>), uploading B under N and then downloading N with no
intervening operation answers 200 with exactly the bytes B. -/
theorem upload_download_roundtrip (root : FPath) (fs : FS) (B : List Nat) (N : String)
    (tmpP : FPath) (u : String) (form2 : FormFiles)
    (hplain : storagePath root N = root ++ ["uploads", N])
    (hparent : fsGet fs (root ++ ["uploads"]) = some .dir)
    (htmp : fsGet fs tmpP = some (.file B))
    (hdst : fsGet fs (root ++ ["uploads", N]) ≠ some .dir)
    (hdst2 : fsGet fs (root ++ ["uploads", N]) ≠ some .inaccessible)
    (hu : strStartsWith u "/download/" = true)
    (hdec : decodeURIComponent (lastSegment u) = some N) :
    ∃ fs1, handle root ⟨"POST", "/upload"⟩ (.ok (some (.single ⟨tmpP, N⟩))) fs =
        .resp (jsonResp 200 (uploadOkJson N)) fs1
      ∧ handle root ⟨"GET", u⟩ form2 fs1 =
        .resp ⟨200, corsHeaders ++ dlHeaders N, .bytes B⟩ fs1 := by
  have hut : uploadTarget root ⟨tmpP, N⟩ = root ++ ["uploads", N] := hplain
  have hdl : (root ++ ["uploads", N]).dropLast = root ++ ["uploads"] := by
    rw [show root ++ ["uploads", N] = (root ++ ["uploads"]) ++ [N] by
      rw [List.append_assoc]; rfl]
    exact List.dropLast_concat
  have hsuc := upload_success root (some (.single ⟨tmpP, N⟩)) ⟨tmpP, N⟩ fs B rfl htmp
    (by rw [hut]; exact hdst) (by rw [hut]; exact hdst2)
    (by rw [hut, hdl]; exact hparent)
  refine ⟨fsSet (fsErase fs tmpP) (uploadTarget root ⟨tmpP, N⟩) (.file B), hsuc, ?_⟩
  rw [handle_download root u form2 _ hu, downloadRoute, hdec]
  have hget1 : fsGet (fsSet (fsErase fs tmpP) (uploadTarget root ⟨tmpP, N⟩) (.file B))
      (storagePath root N) = some (.file B) :=
    fsGet_fsSet_self _ _ _
  simp only [hget1]
  rfl

/-- C1 witness: uploading bytes abc as hello.txt and downloading it
returns exactly those bytes. -/
theorem upload_download_roundtrip_witness :
    ∃ fs1, handle ["srv"] ⟨"POST", "/upload"⟩
        (.ok (some (.single ⟨["srv", "uploads", "tmp1"], "hello.txt"⟩)))
        [(["srv"], .dir), (["srv", "uploads"], .dir),
         (["srv", "uploads", "tmp1"], .file [97, 98, 99])] =
        .resp (jsonResp 200 (uploadOkJson "hello.txt")) fs1
      ∧ handle ["srv"] ⟨"GET", "/download/hello.txt"⟩ (.ok none) fs1 =
        .resp ⟨200, corsHeaders ++ dlHeaders "hello.txt", .bytes [97, 98, 99]⟩ fs1 :=
  upload_download_roundtrip ["srv"]
    [(["srv"], .dir), (["srv", "uploads"], .dir),
     (["srv", "uploads", "tmp1"], .file [97, 98, 99])]
    [97, 98, 99] "hello.txt" ["srv", "uploads", "tmp1"] "/download/hello.txt" (.ok none)
    rfl rfl rfl (by decide) (by decide) rfl rfl

/-- C2: the storage state maps each name to at most one content (fsGet is a
function of the path), and uploading under a name that already holds a file
silently overwrites it: afterwards the name maps to the new bytes, a
download returns the new bytes and cannot return the old ones, and the
stored path is still exactly storage/<N> (no collision renaming). -/
theorem upload_overwrites (root : FPath) (fs : FS) (B old : List Nat) (N : String)
    (tmpP : FPath) (u : String) (form2 : FormFiles)
    (hplain : storagePath root N = root ++ ["uploads", N])
    (hparent : fsGet fs (root ++ ["uploads"]) = some .dir)
    (htmp : fsGet fs tmpP = some (.file B))
    (hold : fsGet fs (root ++ ["uploads", N]) = some (.file old))
    (hu : strStartsWith u "/download/" = true)
    (hdec : decodeURIComponent (lastSegment u) = some N) :
    ∃ fs1, handle root ⟨"POST", "/upload"⟩ (.ok (some (.single ⟨tmpP, N⟩))) fs =
        .resp (jsonResp 200 (uploadOkJson N)) fs1
      ∧ fsGet fs1 (root ++ ["uploads", N]) = some (.file B)
      ∧ handle root ⟨"GET", u⟩ form2 fs1 =
        .resp ⟨200, corsHeaders ++ dlHeaders N, .bytes B⟩ fs1
      ∧ (old ≠ B →
          handle root ⟨"GET", u⟩ form2 fs1 ≠
            .resp ⟨200, corsHeaders ++ dlHeaders N, .bytes old⟩ fs1) := by
  have hut : uploadTarget root ⟨tmpP, N⟩ = root ++ ["uploads", N] := hplain
  have hdl : (root ++ ["uploads", N]).dropLast = root ++ ["uploads"] := by
    rw [show root ++ ["uploads", N] = (root ++ ["uploads"]) ++ [N] by
      rw [List.append_assoc]; rfl]
    exact List.dropLast_concat
  have hsuc := upload_success root (some (.single ⟨tmpP, N⟩)) ⟨tmpP, N⟩ fs B rfl htmp
    (by rw [hut, hold]; intro he; exact nomatch he)
    (by rw [hut, hold]; intro he; exact nomatch he)
    (by rw [hut, hdl]; exact hparent)
  have hget1 : fsGet (fsSet (fsErase fs tmpP) (uploadTarget root ⟨tmpP, N⟩) (.file B))
      (storagePath root N) = some (.file B) :=
    fsGet_fsSet_self _ _ _
  have hdlresp : handle root ⟨"GET", u⟩ form2
      (fsSet (fsErase fs tmpP) (uploadTarget root ⟨tmpP, N⟩) (.file B)) =
      .resp ⟨200, corsHeaders ++ dlHeaders N, .bytes B⟩
        (fsSet (fsErase fs tmpP) (uploadTarget root ⟨tmpP, N⟩) (.file B)) := by
    rw [handle_download root u form2 _ hu, downloadRoute, hdec]
    simp only [hget1]
    rfl
  refine ⟨fsSet (fsErase fs tmpP) (uploadTarget root ⟨tmpP, N⟩) (.file B), hsuc, ?_, hdlresp, ?_⟩
  · rw [← hut]
    exact fsGet_fsSet_self _ _ _
  · intro hne habs
    rw [hdlresp] at habs
    have h1 : Response.mk 200 (corsHeaders ++ dlHeaders N) (.bytes B) =
        ⟨200, corsHeaders ++ dlHeaders N, .bytes old⟩ := by
      injection habs
    have h2 := congrArg Response.body h1
    injection h2 with h3
    exact hne h3.symm

/-- C2 witness: uploading new bytes [7] under old.txt, which currently holds
[1, 2], overwrites: the download afterwards returns [7]. -/
theorem upload_overwrites_witness :
    ∃ fs1, handle ["srv"] ⟨"POST", "/upload"⟩
        (.ok (some (.single ⟨["srv", "uploads", "tmp2"], "old.txt"⟩)))
        [(["srv"], .dir), (["srv", "uploads"], .dir),
         (["srv", "uploads", "old.txt"], .file [1, 2]),
         (["srv", "uploads", "tmp2"], .file [7])] =
        .resp (jsonResp 200 (uploadOkJson "old.txt")) fs1
      ∧ fsGet fs1 ["srv", "uploads", "old.txt"] = some (.file [7])
      ∧ handle ["srv"] ⟨"GET", "/download/old.txt"⟩ (.ok none) fs1 =
        .resp ⟨200, corsHeaders ++ dlHeaders "old.txt", .bytes [7]⟩ fs1
      ∧ ([1, 2] ≠ [7] →
          handle ["srv"] ⟨"GET", "/download/old.txt"⟩ (.ok none) fs1 ≠
            .resp ⟨200, corsHeaders ++ dlHeaders "old.txt", .bytes [1, 2]⟩ fs1) :=
  upload_overwrites ["srv"]
    [(["srv"], .dir), (["srv", "uploads"], .dir),
     (["srv", "uploads", "old.txt"], .file [1, 2]),
     (["srv", "uploads", "tmp2"], .file [7])]
    [7] [1, 2] "old.txt" ["srv", "uploads", "tmp2"] "/download/old.txt" (.ok none)
    rfl rfl rfl rfl rfl rfl

/-! ### Claim C8 -/

/-- A filesystem with public assets. -/
def fsPub : FS :=
  [(["srv"], .dir), (["srv", "public"], .dir),
   (["srv", "public", "client.html"], .file [60]),
   (["srv", "public", "note.txt"], .file [104, 105])]

/-- C8 counterexample: the static fallback is not reserved to GET requests:
a POST to /note.txt (unmatched by every route) is served the static asset
with a 200, refuting "a static asset is served only for unmatched GET
requests". -/
theorem static_nonget_counterexample :
    handle ["srv"] ⟨"POST", "/note.txt"⟩ (.ok none) fsPub =
      .resp ⟨200, corsHeaders ++ [("Content-Type", "application/octet-stream")],
        .bytes [104, 105]⟩ fsPub :=
  rfl

/-- C8 (amended): a static asset is served for every unmatched request
regardless of method (not only GET); the path resolves under the public
assets directory with '/' mapping to the client page, the content type
comes from the file's extension with unrecognized extensions defaulting to
application/octet-stream, and an absent asset yields a 404 HTML response. -/
theorem static_fallback (root : FPath) (req : Request) (form : FormFiles) (fs : FS)
    (hm : req.method ≠ "OPTIONS")
    (h1 : ¬(req.url = "/upload" ∧ req.method = "POST"))
    (h2 : ¬(req.url = "/files" ∧ req.method = "GET"))
    (h3 : ¬(strStartsWith req.url "/download/" = true ∧ req.method = "GET"))
    (h4 : ¬(strStartsWith req.url "/delete/" = true ∧ req.method = "DELETE")) :
    handle root req form fs = staticRoute root req.url fs
    ∧ staticPath root req.url =
        pathJoin (root ++ ["public"]) (if req.url = "/" then "/client.html" else req.url)
    ∧ (fsGet fs (staticPath root req.url) = none →
        staticRoute root req.url fs =
          .resp ⟨404, corsHeaders ++ [("Content-Type", "text/html")],
            .text "<h1>404 Not Found</h1><p>The requested file could not be found.</p>"⟩ fs)
    ∧ (∀ c, fsGet fs (staticPath root req.url) = some (.file c) →
        staticRoute root req.url fs =
          .resp ⟨200, corsHeaders ++ [("Content-Type", staticCT (staticPath root req.url))],
            .bytes c⟩ fs)
    ∧ (lookupStr mimeTypes (lowerStr (extnameOf (staticPath root req.url))) = none →
        staticCT (staticPath root req.url) = "application/octet-stream") := by
  refine ⟨handle_static root req form fs hm h1 h2 h3 h4, rfl, ?_, ?_, ?_⟩
  · intro hget
    rw [staticRoute, fsReadFile]
    simp only [hget]
    rfl
  · intro c hget
    rw [staticRoute, fsReadFile]
    simp only [hget]
    rfl
  · intro hlk
    rw [staticCT, hlk]
    rfl

/-- C8 witness: GET /note.txt is unmatched by every route and serves the
asset with the octet-stream default content type (".txt" is not in the
mime table); GET / serves the client page. -/
theorem static_fallback_witness :
    handle ["srv"] ⟨"GET", "/note.txt"⟩ (.ok none) fsPub =
      .resp ⟨200, corsHeaders ++ [("Content-Type", staticCT (staticPath ["srv"] "/note.txt"))],
        .bytes [104, 105]⟩ fsPub
    ∧ staticCT (staticPath ["srv"] "/note.txt") = "application/octet-stream" := by
  obtain ⟨hr, -, -, h200, hoct⟩ :=
    static_fallback ["srv"] ⟨"GET", "/note.txt"⟩ (.ok none) fsPub
      (by decide) (by decide) (by decide) (by decide) (by decide)
  exact ⟨by rw [hr]; exact h200 [104, 105] rfl, hoct rfl⟩

end HomeServer
